import Mathlib

set_option maxRecDepth 8000

/-!
Verification of the Citation-Linked Context & Normalization Pipeline
(src/main8.py of reddit-persona-analyzer).

The Python source is shallowly embedded below.  The tiktoken encoder
(`cl100k_base`), the `hashlib.md5` digest and the `json` stdlib are external
libraries, not code of this repository; following §4.1/§4.3 of the spec they
are modelled as explicit parameters (an abstract `Tokenizer` record, an
abstract digest function, an abstract payload parser).  Everything that the
repository itself computes — truncation arithmetic, packing loop, citation-id
assignment, sorting, cache-key derivation, the citation regex and its
replacement callback — is translated directly from src/main8.py.
-/

/-! ## Configuration constants (src/main8.py lines 15-21) -/

def CACHE_DIR : String := "reddit_cache"

def MAX_TOKENS : Nat := 7000

def MAX_ITEM_TOKENS : Nat := 300

def MAX_ITEMS_FETCH : Nat := 20

def SUMMARIZATION_THRESHOLD : Nat := 300

/-! ## Tokenizer (src/main8.py lines 33-36)

Modelled from the spec: the fixed encoding scheme (`tiktoken`'s
`cl100k_base`) is an external library; §4.1 of the spec specifies it only
through `encode`, `decode` and `count_tokens`.  We therefore model it as a
record of an encode and a decode function; `count_tokens` is translated from
the source (`len(enc.encode(text))`). -/

structure Tokenizer where
  encode : String → List Nat
  decode : List Nat → String

/-- `count_tokens` (src/main8.py lines 34-36): length of the encoding. -/
def count_tokens (T : Tokenizer) (text : String) : Nat :=
  (T.encode text).length

/-- The visible separator spliced between head and tail slices
(src/main8.py line 63). -/
def SEPARATOR : String := " [...] "

/-- `smart_truncate` (src/main8.py lines 39-70).
`int(len(tokens) * 0.45)` is modelled as `len * 45 / 100` (the float product
rounds to the same integer on the ranges exercised here, e.g. `10000 * 0.45`
rounds to exactly `4500.0`); `max(0, a - b)` is natural-number subtraction;
`int(reduction_needed / 2)` is floor division by two. -/
def smart_truncate (T : Tokenizer) (content : String) (max_tokens : Nat) : String :=
  if count_tokens T content ≤ max_tokens then content
  else
    let tokens := T.encode content
    let start_len0 := tokens.length * 45 / 100
    let end_len0 := tokens.length * 45 / 100
    let start_len :=
      if start_len0 + end_len0 + 5 > max_tokens then
        start_len0 - (start_len0 + end_len0 + 5 - max_tokens) / 2
      else start_len0
    let end_len :=
      if start_len0 + end_len0 + 5 > max_tokens then
        end_len0 - (start_len0 + end_len0 + 5 - max_tokens) / 2
      else end_len0
    let truncated_text := T.decode (tokens.take start_len)
    let truncated_text :=
      if start_len + end_len < tokens.length then
        truncated_text ++ SEPARATOR ++ T.decode (tokens.drop (tokens.length - end_len))
      else truncated_text
    if count_tokens T truncated_text > max_tokens then
      T.decode (tokens.take max_tokens)
    else truncated_text

/-- A concrete tokenizer used for witnesses: each character is one token.
It is drift-free (`decode` inverts `encode` exactly), so it satisfies the
round-trip bound that the pipeline implicitly assumes of `cl100k_base`. -/
def charTok : Tokenizer where
  encode s := s.data.map Char.toNat
  decode l := String.mk (l.map Char.ofNat)

theorem charTok_count (s : String) : count_tokens charTok s = s.data.length := by
  simp [count_tokens, charTok]

theorem charTok_roundtrip (l : List Nat) :
    (charTok.encode (charTok.decode l)).length ≤ l.length := by
  simp [charTok]

/-- Core budget bound for `smart_truncate`, shared by the item-level
invariant: provided re-encoding a decoded token slice never yields more
tokens than the slice held, every branch of `smart_truncate` respects the
ceiling (the smart branch is explicitly re-checked by the source at line 67,
and the fallback at line 68 returns a decoded `max_tokens`-token prefix). -/
theorem smart_truncate_bound (T : Tokenizer)
    (hrt : ∀ l : List Nat, (T.encode (T.decode l)).length ≤ l.length)
    (content : String) (max_tokens : Nat) :
    count_tokens T (smart_truncate T content max_tokens) ≤ max_tokens := by
  unfold smart_truncate
  simp only
  split_ifs <;>
    first
      | omega
      | exact le_trans (hrt _) (by simp)

/-- C1: for every text `t` and every token budget `b ≥ 0`,
`smart_truncate(t, b)` returns a text whose token count is at most `b`;
when the head+tail reassembly drifts over budget on re-encoding, the
mandatory hard-prefix fallback is taken and the bound still holds.  The
hypothesis is the round-trip property of the external tokenizer (decoding a
token slice and re-encoding it never yields more tokens than the slice
held), which the hard-prefix fallback — like the spec's "exactly
`max_tokens` tokens" description of it — relies on. -/
theorem smart_truncate_token_bound (T : Tokenizer)
    (hrt : ∀ l : List Nat, (T.encode (T.decode l)).length ≤ l.length)
    (t : String) (b : Nat) :
    count_tokens T (smart_truncate T t b) ≤ b :=
  smart_truncate_bound T hrt t b

/-- Witness for C1 at a concrete tokenizer, text and budget. -/
theorem smart_truncate_token_bound_witness :
    count_tokens charTok (smart_truncate charTok "the quick brown fox jumps over the lazy dog" 10) ≤ 10 :=
  smart_truncate_token_bound charTok charTok_roundtrip "the quick brown fox jumps over the lazy dog" 10

/-! ## Substring counting (used to state "contains the separator once") -/

/-- Number of positions of `s` at which `pat` occurs as a prefix of the
corresponding suffix. -/
def countSubstr (pat : List Char) : List Char → Nat
  | [] => if pat.isEmpty then 1 else 0
  | c :: rest => (if pat.isPrefixOf (c :: rest) then 1 else 0) + countSubstr pat rest

theorem countSubstr_cons_ge (pat : List Char) (a : Char) (l : List Char) :
    countSubstr pat l ≤ countSubstr pat (a :: l) := by
  simp only [countSubstr]
  omega

theorem countSubstr_pos_of_infix (pat l : List Char) (h : pat <:+: l) :
    0 < countSubstr pat l := by
  obtain ⟨s, t, rfl⟩ := h
  induction s with
  | nil =>
    simp only [List.nil_append]
    have hpre : pat.isPrefixOf (pat ++ t) := List.isPrefixOf_iff_prefix.mpr ⟨t, rfl⟩
    cases hl : pat ++ t with
    | nil =>
      have hp : pat.isEmpty := by
        cases pat
        · rfl
        · simp at hl
      simp [countSubstr, hp]
    | cons x xs =>
      rw [hl] at hpre
      simp [countSubstr, List.isPrefixOf_iff_prefix.mp hpre]
  | cons a s ih =>
    simp only [List.cons_append]
    calc 0 < countSubstr pat (s ++ pat ++ t) := ih
      _ ≤ countSubstr pat (a :: (s ++ pat ++ t)) := countSubstr_cons_ge pat a _

theorem infix_of_countSubstr_pos (pat l : List Char) (hp : pat ≠ [])
    (h : 0 < countSubstr pat l) : pat <:+: l := by
  induction l with
  | nil =>
    simp [countSubstr, List.isEmpty_iff, hp] at h
  | cons c rest ih =>
    simp only [countSubstr] at h
    by_cases hpre : pat.isPrefixOf (c :: rest)
    · exact (List.isPrefixOf_iff_prefix.mp hpre).isInfix
    · simp [hpre] at h
      exact List.infix_cons (ih h)

theorem countSubstr_take_eq_zero (pat l : List Char) (hp : pat ≠ [])
    (h : countSubstr pat l = 0) (n : Nat) : countSubstr pat (l.take n) = 0 := by
  by_contra hne
  have hpos : 0 < countSubstr pat (l.take n) := Nat.pos_of_ne_zero hne
  have hinf : pat <:+: l.take n := infix_of_countSubstr_pos pat (l.take n) hp hpos
  have : pat <:+: l := hinf.trans (List.take_prefix n l).isInfix
  have := countSubstr_pos_of_infix pat l this
  omega

/-! ## Raw data model (src/main8.py lines 99-131)

The source stores fetched items as dicts tagged with a `"type"` key
(`"comment"` / `"post"`); `raw_data` is the dict
`\x7b"comments": [...], "posts": [...]\x7d`.  We model the two dict shapes as
structures and the tag dispatch as a sum type. -/

structure RawComment where
  raw_body : String
  url : String
  created_utc : Nat
deriving DecidableEq

structure RawPost where
  title : String
  raw_body : String
  url : String
  created_utc : Nat
deriving DecidableEq

structure RawData where
  comments : List RawComment
  posts : List RawPost
deriving DecidableEq

abbrev RawItem := Sum RawComment RawPost

def rawCreated : RawItem → Nat
  | Sum.inl c => c.created_utc
  | Sum.inr p => p.created_utc

def rawUrl : RawItem → String
  | Sum.inl c => c.url
  | Sum.inr p => p.url

/-- The post record built by `get_reddit_data` (src/main8.py lines 119-125):
`"raw_body": s.selftext if s.selftext else "[No self-text]"` — the empty
selftext is replaced by the placeholder at fetch time. -/
def fetchPostRecord (title selftext permalink : String) (created : Nat) : RawPost :=
  { title := title
    raw_body := if selftext = "" then "[No self-text]" else selftext
    url := "https://reddit.com" ++ permalink
    created_utc := created }

/-! ## Stable descending sort (src/main8.py lines 152-156 and 202-206)

`sorted(..., key=lambda x: x["created_utc"], reverse=True)` is a stable sort
descending by `created_utc`; with `reverse=True` CPython inverts the
comparison but keeps equal elements in their original order.  We embed it as
the (stable) `List.mergeSort` with the relation "my key is at least yours". -/

def sortByCreatedDesc {α : Type} (key : α → Nat) (l : List α) : List α :=
  l.mergeSort (fun a b => decide (key b ≤ key a))

theorem sortByCreatedDesc_trans {α : Type} (key : α → Nat) :
    ∀ a b c : α, decide (key b ≤ key a) → decide (key c ≤ key b) →
      decide (key c ≤ key a) = true := by
  intro a b c h1 h2
  simp only [decide_eq_true_iff] at *
  omega

theorem sortByCreatedDesc_total {α : Type} (key : α → Nat) :
    ∀ a b : α, decide (key b ≤ key a) || decide (key a ≤ key b) := by
  intro a b
  rcases Nat.le_total (key a) (key b) with h | h <;> simp [h]

theorem sortByCreatedDesc_sorted {α : Type} (key : α → Nat) (l : List α) :
    (sortByCreatedDesc key l).Pairwise (fun a b => key b ≤ key a) := by
  have h : (List.mergeSort l (fun a b => decide (key b ≤ key a))).Pairwise
      (fun a b => decide (key b ≤ key a) = true) :=
    List.sorted_mergeSort (sortByCreatedDesc_trans key) (sortByCreatedDesc_total key) l
  exact h.imp (by simp)

/-- Stability of the embedded sort, stated the way the spec uses it: the
items carrying any one fixed timestamp appear in the sorted output exactly
in their original (fetch) order. -/
theorem sortByCreatedDesc_stable {α : Type} (key : α → Nat) (l : List α) (t : Nat) :
    (sortByCreatedDesc key l).filter (fun x => decide (key x = t)) =
      l.filter (fun x => decide (key x = t)) := by
  have hsub : List.Sublist (l.filter (fun x => decide (key x = t))) l :=
    List.filter_sublist l
  have hpair : (l.filter (fun x => decide (key x = t))).Pairwise
      (fun a b => decide (key b ≤ key a)) := by
    refine List.pairwise_of_forall_mem_list ?_
    intro a ha b hb
    have ha' := (List.mem_filter.mp ha).2
    have hb' := (List.mem_filter.mp hb).2
    simp only [decide_eq_true_iff] at *
    omega
  have hstable : List.Sublist (l.filter (fun x => decide (key x = t)))
      (sortByCreatedDesc key l) :=
    List.sublist_mergeSort (sortByCreatedDesc_trans key) (sortByCreatedDesc_total key)
      hpair hsub
  have hsub2 : List.Sublist (l.filter (fun x => decide (key x = t)))
      ((sortByCreatedDesc key l).filter (fun x => decide (key x = t))) := by
    have h := hstable.filter (fun x => decide (key x = t))
    rwa [List.filter_filter, show ((fun x => decide (key x = t) && decide (key x = t)))
      = (fun x => decide (key x = t)) from by funext x; cases decide (key x = t) <;> rfl] at h
  have hperm : List.Perm ((sortByCreatedDesc key l).filter (fun x => decide (key x = t)))
      (l.filter (fun x => decide (key x = t))) :=
    (List.mergeSort_perm l _).filter _
  exact (hsub2.eq_of_length hperm.length_eq.symm).symm

/-! ## Citation-id formatting (src/main8.py line 162): `f"SRC\x7bidx+1:03d\x7d"`. -/

/-- Python's `format(n, "03d")`: decimal digits, left-padded with zeros to
width three. -/
def pad3 (n : Nat) : String :=
  if n < 10 then "00" ++ toString n
  else if n < 100 then "0" ++ toString n
  else toString n

def citationId (n : Nat) : String := "SRC" ++ pad3 n

theorem pad3_digits : ∀ n : Nat, n < 1000 →
    pad3 n = String.mk [Nat.digitChar (n / 100), Nat.digitChar (n / 10 % 10),
      Nat.digitChar (n % 10)] := by decide

theorem citationId_injOn (a b : Nat) (ha : a < 1000) (hb : b < 1000)
    (h : citationId a = citationId b) : a = b := by
  have hdig : ∀ i < 10, ∀ j < 10, Nat.digitChar i = Nat.digitChar j → i = j := by
    decide
  unfold citationId at h
  rw [pad3_digits a ha, pad3_digits b hb] at h
  have h' : ("SRC" ++ String.mk [Nat.digitChar (a / 100), Nat.digitChar (a / 10 % 10),
      Nat.digitChar (a % 10)]).data = ("SRC" ++ String.mk [Nat.digitChar (b / 100),
      Nat.digitChar (b / 10 % 10), Nat.digitChar (b % 10)]).data := by rw [h]
  simp only [String.data_append] at h'
  have e1 : Nat.digitChar (a / 100) = Nat.digitChar (b / 100) := by
    simpa using congrArg (fun l => l.get? 3) h'
  have e2 : Nat.digitChar (a / 10 % 10) = Nat.digitChar (b / 10 % 10) := by
    simpa using congrArg (fun l => l.get? 4) h'
  have e3 : Nat.digitChar (a % 10) = Nat.digitChar (b % 10) := by
    simpa using congrArg (fun l => l.get? 5) h'
  have d1 : a / 100 = b / 100 := hdig _ (by omega) _ (by omega) e1
  have d2 : a / 10 % 10 = b / 10 % 10 := hdig _ (by omega) _ (by omega) e2
  have d3 : a % 10 = b % 10 := hdig _ (by omega) _ (by omega) e3
  omega

/-! ## Item processing (src/main8.py lines 139-193)

`process_data` combines comments and posts, sorts them newest-first, assigns
`SRC\x7bidx+1:03d\x7d` citation ids, truncates oversized bodies and builds the
citation registry.  The cache lookup/store wrapper around it (lines 141-146,
192) is file I/O handled by `get_cached_data`/`save_to_cache`, modelled
separately below; the processing body itself is embedded here.  The Python
dict `citation_registry` preserves insertion order, so it is modelled as an
association list in insertion order. -/

structure ProcessedComment where
  body : String
  created_utc : Nat
  citation_id : String
deriving DecidableEq

structure ProcessedPost where
  title : String
  body : String
  created_utc : Nat
  citation_id : String
deriving DecidableEq

structure ProcessedData where
  comments : List ProcessedComment
  posts : List ProcessedPost
  citation_registry : List (String × String)
deriving DecidableEq

/-- The per-item threshold/truncation rule (src/main8.py lines 168-169 and
178-179). -/
def truncateContent (T : Tokenizer) (content : String) : String :=
  if count_tokens T content > SUMMARIZATION_THRESHOLD then
    smart_truncate T content MAX_ITEM_TOKENS
  else content

/-- The `for idx, item in enumerate(all_items)` loop of `process_data`
(src/main8.py lines 161-185), with `idx` as the first argument.  Appending to
`processed_comments` / `processed_posts` / `citation_registry` in iteration
order is rendered by prepending the current item to the recursively
processed tail (the tail holds the later, higher-index items). -/
def processLoop (T : Tokenizer) :
    Nat → List RawItem → List ProcessedComment × List ProcessedPost × List (String × String)
  | _, [] => ([], [], [])
  | idx, item :: rest =>
    let cid := citationId (idx + 1)
    let r := processLoop T (idx + 1) rest
    match item with
    | Sum.inl c =>
      (⟨truncateContent T c.raw_body, c.created_utc, cid⟩ :: r.1, r.2.1,
        (cid, c.url) :: r.2.2)
    | Sum.inr p =>
      (r.1,
        ⟨p.title, truncateContent T ("Title: " ++ p.title ++ ". Body: " ++ p.raw_body),
          p.created_utc, cid⟩ :: r.2.1,
        (cid, p.url) :: r.2.2)

/-- The combined, newest-first item list of `process_data`
(src/main8.py lines 152-156). -/
def allRawItems (raw : RawData) : List RawItem :=
  sortByCreatedDesc rawCreated (raw.comments.map Sum.inl ++ raw.posts.map Sum.inr)

/-- `process_data` (src/main8.py lines 139-193), fresh-processing path. -/
def process_data (T : Tokenizer) (raw : RawData) : ProcessedData :=
  let r := processLoop T 0 (allRawItems raw)
  ⟨r.1, r.2.1, r.2.2⟩

def numRawItems (raw : RawData) : Nat :=
  raw.comments.length + raw.posts.length

def registryIds (d : ProcessedData) : List String :=
  d.citation_registry.map Prod.fst

theorem processLoop_registry_ids (T : Tokenizer) :
    ∀ (l : List RawItem) (i : Nat),
      (processLoop T i l).2.2.map Prod.fst =
        (List.range l.length).map (fun k => citationId (i + k + 1)) := by
  intro l
  induction l with
  | nil => intro i; rfl
  | cons item rest ih =>
    intro i
    have hrange : List.range (rest.length + 1) = 0 :: (List.range rest.length).map (· + 1) :=
      List.range_succ_eq_map rest.length
    cases item with
    | inl c =>
      simp only [processLoop, List.length_cons, hrange, List.map_cons, List.map_map]
      refine congrArg₂ _ (by simp) ?_
      rw [ih (i + 1)]
      apply List.map_congr_left
      intro k _
      simp only [Function.comp_apply]
      ring_nf
    | inr p =>
      simp only [processLoop, List.length_cons, hrange, List.map_cons, List.map_map]
      refine congrArg₂ _ (by simp) ?_
      rw [ih (i + 1)]
      apply List.map_congr_left
      intro k _
      simp only [Function.comp_apply]
      ring_nf

/-! ## AI-input assembly (src/main8.py lines 195-230) -/

def pad2 (n : Nat) : String :=
  if n < 10 then "0" ++ toString n else toString n

def pad4 (n : Nat) : String :=
  if n < 10 then "000" ++ toString n
  else if n < 100 then "00" ++ toString n
  else if n < 1000 then "0" ++ toString n
  else toString n

/-- `datetime.utcfromtimestamp(ts).strftime("%Y-%m-%d")`
(src/main8.py lines 215 and 217).  Modelled from the spec: the `datetime`
stdlib is external; this is the standard proleptic-Gregorian
civil-from-days computation on the epoch-day number. -/
def formatDate (ts : Nat) : String :=
  let z := ts / 86400 + 719468
  let era := z / 146097
  let doe := z % 146097
  let yoe := (doe - doe / 1460 + doe / 36524 - doe / 146096) / 365
  let y0 := yoe + era * 400
  let doy := doe - (365 * yoe + yoe / 4 - yoe / 100)
  let mp := (5 * doy + 2) / 153
  let d := doy - (153 * mp + 2) / 5 + 1
  let m := if mp < 10 then mp + 3 else mp - 9
  let y := if m ≤ 2 then y0 + 1 else y0
  pad4 y ++ "-" ++ pad2 m ++ "-" ++ pad2 d

/-- The fixed preamble of `prepare_ai_input` (src/main8.py line 197). -/
def AI_PREAMBLE : String :=
  "Below is a summary of a Reddit user\x27s recent activity (comments and posts), ordered from newest to oldest. Each item includes a citation ID [SRCXXX] that links to the original content.\n\n"

abbrev ProcItem := Sum ProcessedComment ProcessedPost

def procCreated : ProcItem → Nat
  | Sum.inl c => c.created_utc
  | Sum.inr p => p.created_utc

/-- One formatted line (src/main8.py lines 213-217); the source dispatches on
`"title" in item`, i.e. on which of the two processed shapes the item has.
The `item.get('citation_id', 'UNKNOWN_SRC')` default never fires here because
both processed shapes always carry `citation_id` (set at lines 173/184). -/
def formatEntry (it : ProcItem) : String :=
  match it with
  | Sum.inr p =>
    "[" ++ p.citation_id ++ "] POST (" ++ formatDate p.created_utc ++ "): Title: " ++
      p.title ++ ". Content: " ++ p.body ++ "\n"
  | Sum.inl c =>
    "[" ++ c.citation_id ++ "] COMMENT (" ++ formatDate c.created_utc ++ "): " ++
      c.body ++ "\n"

/-- The packing loop of `prepare_ai_input` (src/main8.py lines 209-227):
append a line only when it still fits, otherwise break. -/
def packItems (T : Tokenizer) (budget : Nat) :
    List ProcItem → String → Nat → String × Nat
  | [], acc, tok => (acc, tok)
  | it :: rest, acc, tok =>
    let entry := formatEntry it
    let entry_tokens := count_tokens T entry
    if tok + entry_tokens > budget then (acc, tok)
    else packItems T budget rest (acc ++ entry) (tok + entry_tokens)

def sortedProcItems (d : ProcessedData) : List ProcItem :=
  sortByCreatedDesc procCreated (d.comments.map Sum.inl ++ d.posts.map Sum.inr)

/-- `prepare_ai_input` (src/main8.py lines 195-230): returns the packed
string, its exact token count and the citation registry. -/
def prepare_ai_input (T : Tokenizer) (d : ProcessedData) :
    String × Nat × List (String × String) :=
  let max_tokens := MAX_TOKENS - 800
  let r := packItems T max_tokens (sortedProcItems d) AI_PREAMBLE
    (count_tokens T AI_PREAMBLE)
  (r.1, r.2, d.citation_registry)

theorem packItems_le (T : Tokenizer) (budget : Nat) :
    ∀ (l : List ProcItem) (acc : String) (tok : Nat), tok ≤ budget →
      (packItems T budget l acc tok).2 ≤ budget := by
  intro l
  induction l with
  | nil => intro acc tok h; exact h
  | cons it rest ih =>
    intro acc tok h
    simp only [packItems]
    split
    · exact h
    · exact ih _ _ (by omega)

/-- C2: `prepare_ai_input` never exceeds the total token budget
`MAX_TOKENS - 800`: a formatted line is appended only if the running count
plus that line stays within the budget, and if even the preamble plus the
first line overflows, zero items are packed (the output is the bare
preamble).  The hypothesis — the fixed preamble itself fits the budget — is
the one fact the loop does not check (its starting count is the preamble's
count); it holds for the concrete preamble under any reasonable encoding. -/
theorem prepare_ai_input_within_budget (T : Tokenizer) (d : ProcessedData)
    (hp : count_tokens T AI_PREAMBLE ≤ MAX_TOKENS - 800) :
    (prepare_ai_input T d).2.1 ≤ MAX_TOKENS - 800 ∧
    (∀ it rest, sortedProcItems d = it :: rest →
      count_tokens T AI_PREAMBLE + count_tokens T (formatEntry it) > MAX_TOKENS - 800 →
      (prepare_ai_input T d).1 = AI_PREAMBLE) := by
  constructor
  · exact packItems_le T _ _ _ _ hp
  · intro it rest hsort hover
    unfold prepare_ai_input
    rw [hsort]
    simp only [packItems, hover, if_pos hover]
    rfl

/-- Witness for C2 at a concrete tokenizer and processed data set. -/
theorem prepare_ai_input_within_budget_witness :
    (prepare_ai_input charTok
      ⟨[⟨"nice", 100, "SRC002"⟩], [⟨"Hi", "Title: Hi. Body: world", 200, "SRC001"⟩], 
        [("SRC001", "post_url"), ("SRC002", "comment_url")]⟩).2.1 ≤ MAX_TOKENS - 800 :=
  (prepare_ai_input_within_budget charTok _ (by decide)).1

theorem allRawItems_length (raw : RawData) :
    (allRawItems raw).length = numRawItems raw := by
  unfold allRawItems sortByCreatedDesc numRawItems
  rw [(List.mergeSort_perm _ _).length_eq]
  simp

/-- C3: for at most 999 input items, the citation ids assigned by
`process_data` are, in registry (= assignment) order, exactly
`SRC001, SRC002, ...` — unique, gap-free, starting at `SRC001`, increasing
with descending-`created_utc` rank — the item list having been stably sorted
descending by `created_utc`, ties keeping original fetch order (comments
before posts, each in fetched order, per the `comments + posts`
concatenation at line 153). -/
theorem process_data_citation_ids (T : Tokenizer) (raw : RawData)
    (hn : numRawItems raw ≤ 999) :
    registryIds (process_data T raw) =
      (List.range (numRawItems raw)).map (fun i => citationId (i + 1)) ∧
    (registryIds (process_data T raw)).Nodup ∧
    (allRawItems raw).Pairwise (fun a b => rawCreated b ≤ rawCreated a) ∧
    (∀ t : Nat, (allRawItems raw).filter (fun x => decide (rawCreated x = t)) =
      (raw.comments.map Sum.inl ++ raw.posts.map Sum.inr).filter
        (fun x => decide (rawCreated x = t))) := by
  have hids : registryIds (process_data T raw) =
      (List.range (numRawItems raw)).map (fun i => citationId (i + 1)) := by
    show (processLoop T 0 (allRawItems raw)).2.2.map Prod.fst = _
    rw [processLoop_registry_ids T (allRawItems raw) 0, allRawItems_length raw]
    apply List.map_congr_left
    intro k _
    simp
  refine ⟨hids, ?_, sortByCreatedDesc_sorted rawCreated _,
    fun t => sortByCreatedDesc_stable rawCreated _ t⟩
  rw [hids]
  refine List.Nodup.map_on ?_ (List.nodup_range _)
  intro i hi j hj hij
  have hi' : i < numRawItems raw := List.mem_range.mp hi
  have hj' : j < numRawItems raw := List.mem_range.mp hj
  have := citationId_injOn (i + 1) (j + 1) (by omega) (by omega) hij
  omega

/-- Witness for C3 at a concrete two-item data set (spec scenario A). -/
theorem process_data_citation_ids_witness :
    registryIds (process_data charTok
      ⟨[⟨"nice", "comment_url", 100⟩], [⟨"Hi", "world", "post_url", 200⟩]⟩) =
      (List.range (numRawItems
        ⟨[⟨"nice", "comment_url", 100⟩], [⟨"Hi", "world", "post_url", 200⟩]⟩)).map
        (fun i => citationId (i + 1)) :=
  (process_data_citation_ids charTok _ (by decide)).1

theorem truncateContent_le (T : Tokenizer)
    (hrt : ∀ l : List Nat, (T.encode (T.decode l)).length ≤ l.length) (s : String) :
    count_tokens T (truncateContent T s) ≤ MAX_ITEM_TOKENS := by
  unfold truncateContent
  split
  · exact smart_truncate_bound T hrt s MAX_ITEM_TOKENS
  · unfold SUMMARIZATION_THRESHOLD MAX_ITEM_TOKENS at *
    omega

theorem processLoop_comment_body (T : Tokenizer) :
    ∀ (l : List RawItem) (idx : Nat) (c : ProcessedComment),
      c ∈ (processLoop T idx l).1 → ∃ s, c.body = truncateContent T s := by
  intro l
  induction l with
  | nil => intro idx c h; simp [processLoop] at h
  | cons item rest ih =>
    intro idx c h
    cases item with
    | inl rc =>
      simp only [processLoop, List.mem_cons] at h
      rcases h with h | h
      · exact ⟨rc.raw_body, by rw [h]⟩
      · exact ih (idx + 1) c h
    | inr rp =>
      simp only [processLoop] at h
      exact ih (idx + 1) c h

theorem processLoop_post_body (T : Tokenizer) :
    ∀ (l : List RawItem) (idx : Nat) (p : ProcessedPost),
      p ∈ (processLoop T idx l).2.1 → ∃ s, p.body = truncateContent T s := by
  intro l
  induction l with
  | nil => intro idx p h; simp [processLoop] at h
  | cons item rest ih =>
    intro idx p h
    cases item with
    | inl rc =>
      simp only [processLoop] at h
      exact ih (idx + 1) p h
    | inr rp =>
      simp only [processLoop, List.mem_cons] at h
      rcases h with h | h
      · exact ⟨"Title: " ++ rp.title ++ ". Body: " ++ rp.raw_body, by rw [h]⟩
      · exact ih (idx + 1) p h

/-- C10: every item emitted by `process_data` has a body of at most
`MAX_ITEM_TOKENS = 300` tokens — bodies above `SUMMARIZATION_THRESHOLD = 300`
tokens are cut by `smart_truncate` to `MAX_ITEM_TOKENS`, and all other
bodies already sit at or below the (equal) threshold; the invariant covers
comments and posts alike.  The tokenizer round-trip hypothesis is the same
one `smart_truncate`'s fallback needs (see C1). -/
theorem process_data_item_token_bound (T : Tokenizer)
    (hrt : ∀ l : List Nat, (T.encode (T.decode l)).length ≤ l.length)
    (raw : RawData) :
    (∀ c ∈ (process_data T raw).comments, count_tokens T c.body ≤ MAX_ITEM_TOKENS) ∧
    (∀ p ∈ (process_data T raw).posts, count_tokens T p.body ≤ MAX_ITEM_TOKENS) := by
  constructor
  · intro c hc
    obtain ⟨s, hs⟩ := processLoop_comment_body T (allRawItems raw) 0 c hc
    rw [hs]
    exact truncateContent_le T hrt s
  · intro p hp
    obtain ⟨s, hs⟩ := processLoop_post_body T (allRawItems raw) 0 p hp
    rw [hs]
    exact truncateContent_le T hrt s

/-- Witness for C10 at a concrete data set. -/
theorem process_data_item_token_bound_witness :
    count_tokens charTok
      (ProcessedComment.mk "nice" 100 "SRC001").body ≤ MAX_ITEM_TOKENS := by
  have hall : allRawItems ⟨[⟨"nice", "comment_url", 100⟩], []⟩ =
      [Sum.inl ⟨"nice", "comment_url", 100⟩] := by
    simp [allRawItems, sortByCreatedDesc]
  have hl : (process_data charTok ⟨[⟨"nice", "comment_url", 100⟩], []⟩).comments =
      [⟨"nice", 100, "SRC001"⟩] := by
    unfold process_data
    rw [hall]
    decide
  have h := (process_data_item_token_bound charTok charTok_roundtrip
    ⟨[⟨"nice", "comment_url", 100⟩], []⟩).1 ⟨"nice", 100, "SRC001"⟩
    (by rw [hl]; exact List.mem_singleton_self _)
  exact h

/-- C9 counterexample: `process_data` itself performs no placeholder
substitution.  Feeding it a post whose raw body is the empty string (legal
raw data: the cache layer deserializes arbitrary stored payloads into this
shape) produces the display text `"Title: t. Body: "` — the concatenation
built with the empty body and without the `"[No self-text]"` placeholder —
so the post IS processed with an empty body string, contradicting the claim
that the substitution happens in `process_data`. -/
theorem process_data_no_placeholder_cex :
    (process_data charTok ⟨[], [⟨"t", "", "u", 5⟩]⟩).posts.map
      (fun p => p.body) = ["Title: t. Body: "] ∧
    countSubstr "[No self-text]".data "Title: t. Body: ".data = 0 := by
  constructor
  · have hall : allRawItems ⟨[], [⟨"t", "", "u", 5⟩]⟩ =
        [Sum.inr ⟨"t", "", "u", 5⟩] := by
      simp [allRawItems, sortByCreatedDesc]
    unfold process_data
    rw [hall]
    decide
  · decide

/-- C9 amended: the placeholder substitution the claim attributes to
`process_data` is in fact performed one stage earlier, by `get_reddit_data`
when it builds the raw post record (line 121,
`s.selftext if s.selftext else "[No self-text]"`); every post record built
by the fetcher therefore has a non-empty raw body — `"[No self-text]"`
exactly when the selftext was empty — and processing such a record yields
the concatenation with the placeholder in body position. -/
theorem fetch_substitutes_placeholder (title selftext permalink : String) (created : Nat) :
    (fetchPostRecord title selftext permalink created).raw_body ≠ "" ∧
    (selftext = "" → (fetchPostRecord title selftext permalink created).raw_body =
      "[No self-text]") ∧
    (process_data charTok ⟨[], [fetchPostRecord "t" "" "/p" 5]⟩).posts.map
      (fun p => p.body) = ["Title: t. Body: [No self-text]"] := by
  refine ⟨?_, ?_, ?_⟩
  · unfold fetchPostRecord
    split
    · simp
    · simpa using by assumption
  · intro h
    simp [fetchPostRecord, h]
  · have hall : allRawItems ⟨[], [fetchPostRecord "t" "" "/p" 5]⟩ =
        [Sum.inr (fetchPostRecord "t" "" "/p" 5)] := by
      simp [allRawItems, sortByCreatedDesc]
    unfold process_data
    rw [hall]
    decide

/-- Witness for C9's amended statement at a concrete empty-selftext post. -/
theorem fetch_substitutes_placeholder_witness :
    (fetchPostRecord "t" "" "/p" 5).raw_body = "[No self-text]" :=
  (fetch_substitutes_placeholder "t" "" "/p" 5).2.1 rfl

/-! ## Content-addressed cache key (src/main8.py line 142)

`hashlib.md5(json.dumps(raw_data, sort_keys=True).encode()).hexdigest()`.
`json.dumps(..., sort_keys=True)` is embedded below: object keys in sorted
order, default `", "` / `": "` separators, JSON string escaping with
`ensure_ascii` (non-ASCII code points as `\uXXXX`, astral ones as surrogate
pairs); timestamps are modelled as integers.  `hashlib.md5` is external
(Modelled from the spec: §4.3 asks only that the key be a digest of the
canonical serialization), so the digest is an explicit function parameter. -/

def hex4 (n : Nat) : String :=
  String.mk [Nat.digitChar (n / 4096 % 16), Nat.digitChar (n / 256 % 16),
    Nat.digitChar (n / 16 % 16), Nat.digitChar (n % 16)]

def jsonEscapeChar (c : Char) : String :=
  if c = '"' then "\\\""
  else if c = '\\' then "\\\\"
  else if c = '\n' then "\\n"
  else if c = '\r' then "\\r"
  else if c = '\t' then "\\t"
  else if c.toNat = 8 then "\\b"
  else if c.toNat = 12 then "\\f"
  else if c.toNat < 32 then "\\u" ++ hex4 c.toNat
  else if c.toNat < 127 then String.singleton c
  else if c.toNat < 65536 then "\\u" ++ hex4 c.toNat
  else
    "\\u" ++ hex4 (55296 + (c.toNat - 65536) / 1024) ++
      "\\u" ++ hex4 (56320 + (c.toNat - 65536) % 1024)

def jsonStr (s : String) : String :=
  "\"" ++ String.join (s.data.map jsonEscapeChar) ++ "\""

def jsonCommentObj (c : RawComment) : String :=
  "\x7b" ++ jsonStr "created_utc" ++ ": " ++ toString c.created_utc ++ ", " ++
    jsonStr "raw_body" ++ ": " ++ jsonStr c.raw_body ++ ", " ++
    jsonStr "type" ++ ": " ++ jsonStr "comment" ++ ", " ++
    jsonStr "url" ++ ": " ++ jsonStr c.url ++ "\x7d"

def jsonPostObj (p : RawPost) : String :=
  "\x7b" ++ jsonStr "created_utc" ++ ": " ++ toString p.created_utc ++ ", " ++
    jsonStr "raw_body" ++ ": " ++ jsonStr p.raw_body ++ ", " ++
    jsonStr "title" ++ ": " ++ jsonStr p.title ++ ", " ++
    jsonStr "type" ++ ": " ++ jsonStr "post" ++ ", " ++
    jsonStr "url" ++ ": " ++ jsonStr p.url ++ "\x7d"

def jsonList {α : Type} (f : α → String) (l : List α) : String :=
  "[" ++ String.intercalate ", " (l.map f) ++ "]"

/-- `json.dumps(raw_data, sort_keys=True)`: the canonical, stably ordered
serialization of the raw input (`"comments"` sorts before `"posts"`). -/
def canonicalSerialize (raw : RawData) : String :=
  "\x7b" ++ jsonStr "comments" ++ ": " ++ jsonList jsonCommentObj raw.comments ++ ", " ++
    jsonStr "posts" ++ ": " ++ jsonList jsonPostObj raw.posts ++ "\x7d"

/-- The processed-data cache key of `process_data` (src/main8.py line 142):
the digest of the canonical serialization of the raw input. -/
def processedCacheKey (digest : String → String) (raw : RawData) : String :=
  digest (canonicalSerialize raw)

/-- C5: any two raw inputs that are byte-identical after canonical (stably
key-ordered) serialization receive the same processed-data cache key, for
every digest function — the key is derived from nothing but the canonical
serialization.  (Note the canonicalization fixes dict-key order only; the
order of items inside the `comments`/`posts` lists is part of the
serialization itself.) -/
theorem processedCacheKey_deterministic (digest : String → String) (a b : RawData)
    (h : canonicalSerialize a = canonicalSerialize b) :
    processedCacheKey digest a = processedCacheKey digest b :=
  congrArg digest h

/-- Witness for C5: two separately constructed raw inputs with identical
canonical serializations get identical keys (digest taken as a concrete
length-tagging function). -/
theorem processedCacheKey_deterministic_witness :
    processedCacheKey (fun s => toString s.length) ⟨[⟨"hi", "u", 5⟩], []⟩ =
      processedCacheKey (fun s => toString s.length) ⟨[⟨"hi", "u", 2 + 3⟩], []⟩ :=
  processedCacheKey_deterministic (fun s => toString s.length) _ _ (by decide)

/-! ## Cache reads (src/main8.py lines 72-78) -/

def cachePath (username_or_hash data_type : String) : String :=
  CACHE_DIR ++ "/" ++ username_or_hash ++ "_" ++ data_type ++ ".json"

inductive CacheReadResult (α : Type) where
  | ok (v : Option α)
  | raised (msg : String)
deriving DecidableEq

/-- `get_cached_data` (src/main8.py lines 73-78).  The filesystem is a map
from paths to file contents; `json.load` is external (Modelled from the
spec: a parser parameter returning `none` on malformed payloads, which in
Python materializes as a raised `json.JSONDecodeError`).  The source guards
only `os.path.exists`: an existing file is parsed unconditionally, so a
parse failure escapes as an exception (`raised`); only a missing file
returns `None` (`ok none`). -/
def get_cached_data {α : Type} (parse : String → Option α) (fs : String → Option String)
    (username_or_hash : String) (data_type : String) : CacheReadResult α :=
  match fs (cachePath username_or_hash data_type) with
  | some content =>
    match parse content with
    | some v => CacheReadResult.ok (some v)
    | none => CacheReadResult.raised "json.decoder.JSONDecodeError"
  | none => CacheReadResult.ok none

/-- C6 is wrong about the code: a present-but-corrupt cache entry is NOT
treated as a cache miss — `json.load` is called with no exception handler,
so the decode error propagates out of `get_cached_data` (up to the
top-level `except Exception` of `main`, line 590, which aborts the run);
it is never converted to the `None` cache-miss result. -/
theorem get_cached_data_corrupt_raises {α : Type} (parse : String → Option α)
    (fs : String → Option String) (u k content : String)
    (hfile : fs (cachePath u k) = some content)
    (hcorrupt : parse content = none) :
    get_cached_data parse fs u k = CacheReadResult.raised "json.decoder.JSONDecodeError" ∧
    ∀ v : Option α, get_cached_data parse fs u k ≠ CacheReadResult.ok v := by
  unfold get_cached_data
  rw [hfile]
  simp [hcorrupt]

/-- Witness for C6's theorem: a concrete corrupt entry for the raw-data key
`"alice"`. -/
theorem get_cached_data_corrupt_raises_witness :
    get_cached_data (fun s => if s = "\x7b\"comments\": []\x7d" then some 0 else none)
      (fun p => if p = cachePath "alice" "raw" then some "\x7bcorrupt" else none)
      "alice" "raw" = CacheReadResult.raised "json.decoder.JSONDecodeError" :=
  (get_cached_data_corrupt_raises _ _ "alice" "raw" "\x7bcorrupt" (by simp) (by simp)).1

/-! ## Citation normalization (src/main8.py lines 364-420)

`replace_citations` applies `re.sub` with a verbose, case-insensitive
pattern of six alternatives (tried left to right at each position, scanning
left to right, each match checked against the trailing negative lookahead
`(?!\()`), and a replacement callback.  The pattern is hand-compiled here
into a backtracking matcher specialized to its exact shape:

  1. `\[\x7b1,3\x7d\s*(?:source|sources?|src|cite|ref(?:erence)?|souce|sorce|scource)\s*\]\x7b1,3\x7d`
  2. the same with parentheses,
  3. `\[\x7b1,3\x7d\s*SRC\d\x7b3\x7d(?:,\s*SRC\d\x7b3\x7d)*\s*\]\x7b1,3\x7d`
  4. `\[\x7b1,3\x7d\s*\d+\s*\]\x7b1,3\x7d`
  5. `\[\x7b1,3\x7d\s*UNKNOWN_SRC\s*\]\x7b1,3\x7d`
  6. `\bSRC\d\x7b3\x7d\b`

Quantifier notes, justifying where the embedding is deterministic:
`\s*` is always followed by a non-space-matching pattern piece (a letter
class, a digit, `S`, `]`, `)`), so its greedy match never needs revisiting;
likewise `\d+` (followed by `\s*` / `]`) and the `(?:,\s*SRC\d\x7b3\x7d)*` star
(with fewer repetitions the continuation `\s*\]\x7b1,3\x7d` immediately hits the
`,`).  The counted brackets DO backtrack against the lookahead (e.g. in
`[source]](`) and are tried greedily from 3 down to 1, as is the word
alternation, expanded in Python's attempt order.  Character classes are the
ASCII portions of `\s`, `\d`, `\w` (the source text is ASCII). -/

def isWordCh (c : Char) : Bool := c.isAlphanum || c = '_'

def isSpaceCh (c : Char) : Bool :=
  c = ' ' || c = '\t' || c = '\n' || c = '\r' || c.toNat = 11 || c.toNat = 12

def isDigitCh (c : Char) : Bool := c.isDigit

def lowEqCh (p c : Char) : Bool := p.toLower = c.toLower

/-- Case-insensitive literal match; returns the rest on success. -/
def matchLitCI : List Char → List Char → Option (List Char)
  | [], s => some s
  | _ :: _, [] => none
  | p :: ps, c :: cs => if lowEqCh p c then matchLitCI ps cs else none

def skipSpaces : List Char → List Char
  | [] => []
  | c :: cs => if isSpaceCh c then skipSpaces cs else c :: cs

def runLen (c : Char) : List Char → Nat
  | [] => 0
  | x :: xs => if x = c then runLen c xs + 1 else 0

def takeDigits : List Char → List Char × List Char
  | [] => ([], [])
  | c :: cs =>
    if isDigitCh c then
      let r := takeDigits cs
      (c :: r.1, r.2)
    else ([], c :: cs)

/-- Greedy counted repetition: try `k j`, `k (j-1)`, ..., `k 1`. -/
def tryDown {α : Type} (k : Nat → Option α) : Nat → Option α
  | 0 => none
  | j + 1 =>
    match k (j + 1) with
    | some r => some r
    | none => tryDown k j

/-- The trailing negative lookahead `(?!\()`. -/
def notOpenParen : List Char → Bool
  | [] => true
  | c :: _ => !(c == '(')

/-- The word alternation, in Python's attempt order (`sources?` expands to
`sources` then `source`; `ref(?:erence)?` to `reference` then `ref`). -/
def wordAlts : List (List Char) :=
  (["source", "sources", "source", "src", "cite", "reference", "ref",
    "souce", "sorce", "scource"]).map String.data

/-- `\s*` then `]`/`)` counted 1-3 (greedy, backtracking against the
lookahead), then `(?!\()`. -/
def closeThen (cl : Char) (s3 : List Char) : Option (List Char) :=
  tryDown (fun closes =>
    let rest := s3.drop closes
    if notOpenParen rest then some rest else none) (min 3 (runLen cl s3))

/-- Alternatives 1 and 2 (bracketed / parenthesized word variants). -/
def matchWordMarker (op cl : Char) (s : List Char) : Option (List Char) :=
  tryDown (fun opens =>
    let s1 := skipSpaces (s.drop opens)
    wordAlts.findSome? (fun w =>
      match matchLitCI w s1 with
      | none => none
      | some s2 => closeThen cl (skipSpaces s2))) (min 3 (runLen op s))

/-- `SRC\d\x7b3\x7d`, case-insensitive. -/
def matchSrcToken (s : List Char) : Option (List Char) :=
  match matchLitCI "SRC".data s with
  | none => none
  | some r =>
    match r with
    | a :: b :: c :: rest =>
      if isDigitCh a && isDigitCh b && isDigitCh c then some rest else none
    | _ => none

/-- `(?:,\s*SRC\d\x7b3\x7d)*`, greedy (deterministic, see the header note). -/
def matchSrcReps : Nat → List Char → List Char
  | 0, s => s
  | fuel + 1, s =>
    match s with
    | ',' :: r =>
      match matchSrcToken (skipSpaces r) with
      | some r2 => matchSrcReps fuel r2
      | none => s
    | _ => s

/-- Alternative 3 (bracketed `SRC###` list). -/
def matchSrcListMarker (s : List Char) : Option (List Char) :=
  tryDown (fun opens =>
    let s1 := skipSpaces (s.drop opens)
    match matchSrcToken s1 with
    | none => none
    | some s2 => closeThen ']' (skipSpaces (matchSrcReps s2.length s2)))
    (min 3 (runLen '[' s))

/-- Alternative 4 (bracketed bare integer). -/
def matchNumMarker (s : List Char) : Option (List Char) :=
  tryDown (fun opens =>
    let s1 := skipSpaces (s.drop opens)
    let d := takeDigits s1
    if d.1.isEmpty then none
    else closeThen ']' (skipSpaces d.2)) (min 3 (runLen '[' s))

/-- Alternative 5 (bracketed `UNKNOWN_SRC`). -/
def matchUnknownMarker (s : List Char) : Option (List Char) :=
  tryDown (fun opens =>
    let s1 := skipSpaces (s.drop opens)
    match matchLitCI "UNKNOWN_SRC".data s1 with
    | none => none
    | some s2 => closeThen ']' (skipSpaces s2)) (min 3 (runLen '[' s))

/-- Alternative 6 (`\bSRC\d\x7b3\x7d\b`): needs a non-word (or absent)
preceding character, a non-word (or absent) following character, and the
following character must also pass the lookahead. -/
def matchBareSrc (prev : Option Char) (s : List Char) : Option (List Char) :=
  let prevWord := match prev with | some c => isWordCh c | none => false
  if prevWord then none
  else
    match matchSrcToken s with
    | none => none
    | some rest =>
      match rest with
      | [] => some []
      | c :: _ => if isWordCh c || c = '(' then none else some rest

/-- One attempt of the whole pattern at the current position; returns the
matched text and the rest of the input. -/
def matchCitationAt (prev : Option Char) (s : List Char) :
    Option (List Char × List Char) :=
  let res :=
    match matchWordMarker '[' ']' s with
    | some r => some r
    | none =>
      match matchWordMarker '(' ')' s with
      | some r => some r
      | none =>
        match matchSrcListMarker s with
        | some r => some r
        | none =>
          match matchNumMarker s with
          | some r => some r
          | none =>
            match matchUnknownMarker s with
            | some r => some r
            | none => matchBareSrc prev s
  match res with
  | some rest => some (s.take (s.length - rest.length), rest)
  | none => none

/-! The replacement callback `replace_match` (src/main8.py lines 396-415). -/

/-- `re.search(r'SRC(\d\x7b3\x7d)', matched_text)` — note: case-SENSITIVE,
unlike the outer pattern. -/
def isSrcIdAt : List Char → Option String
  | 'S' :: 'R' :: 'C' :: a :: b :: c :: _ =>
    if isDigitCh a && isDigitCh b && isDigitCh c then
      some (String.mk ['S', 'R', 'C', a, b, c])
    else none
  | _ => none

def findSrcId : List Char → Option String
  | [] => none
  | x :: rest =>
    match isSrcIdAt (x :: rest) with
    | some cid => some cid
    | none => findSrcId rest

def digitsToNat (ds : List Char) : Nat :=
  ds.foldl (fun n c => n * 10 + (c.toNat - 48)) 0

/-- `re.search(r'\b(\d+)\b', matched_text)`: first maximal digit run with a
word boundary on both sides. -/
def findFirstIntAux : Nat → Bool → List Char → Option Nat
  | 0, _, _ => none
  | _ + 1, _, [] => none
  | fuel + 1, prevWord, c :: rest =>
    if isDigitCh c && !prevWord then
      let d := takeDigits (c :: rest)
      match d.2 with
      | [] => some (digitsToNat d.1)
      | a :: _ =>
        if isWordCh a then findFirstIntAux fuel true d.2
        else some (digitsToNat d.1)
    else findFirstIntAux fuel (isWordCh c) rest

def findFirstInt (m : List Char) : Option Nat :=
  findFirstIntAux m.length false m

/-- `next(iter(citation_registry.values()))`: the first-inserted entry. -/
def firstVal (R : List (String × String)) : String :=
  match R with
  | [] => ""
  | (_, v) :: _ => v

/-- `citation_registry.get(citation_id, fallback_url)`. -/
def lookupD (R : List (String × String)) (k d : String) : String :=
  match R.find? (fun kv => kv.1 == k) with
  | some kv => kv.2
  | none => d

/-- `replace_match` (src/main8.py lines 396-415). -/
def replaceMatch (R : List (String × String)) (m : List Char) : String :=
  match findSrcId m with
  | some cid => "[source](" ++ lookupD R cid (firstVal R) ++ ")"
  | none =>
    match findFirstInt m with
    | some n => "[source](" ++ lookupD R ("SRC" ++ pad3 n) (firstVal R) ++ ")"
    | none => "[source](" ++ firstVal R ++ ")"

/-- The `re.sub` scan: at each position try the pattern; on a match emit the
replacement and continue after it (the `\b` of alternative 6 always looks at
the preceding character of the ORIGINAL text, as `re.sub` does); otherwise
copy one character.  Fuel (`text` length) bounds the recursion; every match
consumes at least one character, so the fuel never runs out. -/
def scanCitations (R : List (String × String)) :
    Nat → Option Char → List Char → List Char
  | 0, _, s => s
  | _ + 1, _, [] => []
  | fuel + 1, prev, c :: rest =>
    match matchCitationAt prev (c :: rest) with
    | some (m, rest') =>
      (replaceMatch R m).data ++ scanCitations R fuel (some (m.getLast?.getD c)) rest'
    | none => c :: scanCitations R fuel (some c) rest

/-- `replace_citations` (src/main8.py lines 368-420): identity on an empty
registry, otherwise the full pattern substitution. -/
def replace_citations (text : String) (citation_registry : List (String × String)) :
    String :=
  if citation_registry.isEmpty then text
  else String.mk (scanCitations citation_registry text.data.length none text.data)

/-- Does any position of `text` still match the citation pattern? (Same scan
as `scanCitations`, reporting instead of replacing.) -/
def hasCitationMatchAux : Nat → Option Char → List Char → Bool
  | 0, _, _ => false
  | _ + 1, _, [] => false
  | fuel + 1, prev, c :: rest =>
    match matchCitationAt prev (c :: rest) with
    | some _ => true
    | none => hasCitationMatchAux fuel (some c) rest

def hasCitationMatch (text : String) : Bool :=
  hasCitationMatchAux text.data.length none text.data

theorem scanCitations_of_no_match (R : List (String × String)) :
    ∀ (fuel : Nat) (prev : Option Char) (s : List Char),
      hasCitationMatchAux fuel prev s = false →
      scanCitations R fuel prev s = s := by
  intro fuel
  induction fuel with
  | zero => intro prev s _; rfl
  | succ fuel ih =>
    intro prev s h
    cases s with
    | nil => rfl
    | cons c rest =>
      simp only [hasCitationMatchAux] at h
      simp only [scanCitations]
      cases hm : matchCitationAt prev (c :: rest) with
      | some v => rw [hm] at h; simp at h
      | none =>
        rw [hm] at h
        simp only at h
        rw [ih (some c) rest h]

/-- C4 counterexample: `replace_citations` is NOT idempotent.  With the
ordinary registry `SRC001 -> http://x` and the text `"[1](source)"`, the
numeric marker `[1]` is guard-blocked on the first pass (it is immediately
followed by `(`), while `(source)` right after it is replaced; the
replacement begins with `[`, so on the second pass `[1]` is no longer
followed by `(` and is rewritten — the guard only protects markers whose
following character does not change. -/
theorem replace_citations_not_idempotent_cex :
    replace_citations "[1](source)" [("SRC001", "http://x")] =
      "[1][source](http://x)" ∧
    replace_citations (replace_citations "[1](source)" [("SRC001", "http://x")])
        [("SRC001", "http://x")] =
      "[source](http://x)[source](http://x)" ∧
    replace_citations (replace_citations "[1](source)" [("SRC001", "http://x")])
        [("SRC001", "http://x")] ≠
      replace_citations "[1](source)" [("SRC001", "http://x")] := by
  refine ⟨by decide, by decide, by decide⟩

/-- C4 amended: `replace_citations` is idempotent on exactly those inputs
whose first-pass output admits no further citation-pattern match; the
"not followed by an opening parenthesis" guard alone does not guarantee
this (see the counterexample: a guard-blocked marker adjacent to a replaced
one is rewritten on the second pass), but whenever the first-pass output is
match-free — the typical case, e.g. ordinary prose whose markers are not
stacked against each other — a second application is a no-op. -/
theorem replace_citations_idempotent_on_matchfree (x : String)
    (R : List (String × String))
    (h : hasCitationMatch (replace_citations x R) = false) :
    replace_citations (replace_citations x R) R = replace_citations x R := by
  by_cases hR : R.isEmpty
  · simp [replace_citations, hR]
  · have hinner : replace_citations x R =
        String.mk (scanCitations R x.data.length none x.data) := by
      simp [replace_citations, hR]
    rw [hinner] at h ⊢
    unfold replace_citations
    rw [if_neg (by simp [hR])]
    unfold hasCitationMatch at h
    rw [scanCitations_of_no_match R _ _ _ h]

/-- Witness for C4's amended statement: a text whose single marker is
replaced and whose output is match-free. -/
theorem replace_citations_idempotent_on_matchfree_witness :
    replace_citations (replace_citations "ok [source] end." [("SRC001", "http://x")])
        [("SRC001", "http://x")] =
      replace_citations "ok [source] end." [("SRC001", "http://x")] :=
  replace_citations_idempotent_on_matchfree "ok [source] end." [("SRC001", "http://x")]
    (by decide)

/-- C7: a matched marker carrying a `SRC###` id that is missing from a
non-empty registry is resolved to the registry's first-inserted entry, not
reported as an error (first conjunct, about the replacement callback on any
match whose first case-sensitive `SRC###` occurrence is an unknown id); and
concretely (spec scenario C) the whole bracketed group `[SRC002, SRC005]`
with the size-1 registry `SRC002 -> url2` is rewritten to the single link
`[source](url2)` — the first matched id wins. -/
theorem replace_citations_unknown_id_fallback (R : List (String × String))
    (m : List Char) (cid : String)
    (hfind : findSrcId m = some cid)
    (hmiss : R.find? (fun kv => kv.1 == cid) = none) :
    replaceMatch R m = "[source](" ++ firstVal R ++ ")" ∧
    replace_citations "Claim [SRC002, SRC005] end" [("SRC002", "url2")] =
      "Claim [source](url2) end" := by
  constructor
  · simp [replaceMatch, hfind, lookupD, hmiss]
  · decide

/-- Witness for C7 at a concrete unknown id (`SRC005` against a registry
holding only `SRC002`). -/
theorem replace_citations_unknown_id_fallback_witness :
    replaceMatch [("SRC002", "url2")] "[SRC005]".data =
      "[source](" ++ firstVal [("SRC002", "url2")] ++ ")" :=
  (replace_citations_unknown_id_fallback [("SRC002", "url2")] "[SRC005]".data "SRC005"
    (by decide) (by decide)).1

/-! ## Scenario D: the 10,000-token comment at `max_tokens = 300`

At 10,000 tokens the head/tail shares are `int(10000*0.45) = 4500` each;
`4500+4500+5 = 9005 > 300` triggers the proportional reduction
`reduction_needed = 8705`, and `int(8705/2) = 4352` shaved off each side
leaves `148+148+5 = 301 > 300`: splitting an odd overflow into two floored
halves under-reduces by one, so the reassembled head+separator+tail sits one
token above budget whenever the separator really costs the 5 tokens the
source budgets for it (line 54), and the final check then discards it for
the hard prefix.  Under the drift-free character tokenizer the separator
costs 7 tokens (303 total) — in either case the fallback fires and the
separator is gone. -/

theorem map_ofNat_toNat (l : List Char) : l.map (fun c => Char.ofNat c.toNat) = l := by
  induction l with
  | nil => rfl
  | cons c cs ih => simp [ih, Char.ofNat_toNat]

/-- Evaluating `smart_truncate` under the character tokenizer on any
10,000-token input with budget 300: the smart head+tail candidate re-counts
to 303 > 300, so the hard-prefix fallback is returned. -/
theorem smart_truncate_10000_300 (t : String) (hn : count_tokens charTok t = 10000) :
    smart_truncate charTok t 300 = String.mk (t.data.take 300) := by
  have hlen : (charTok.encode t).length = 10000 := hn
  unfold smart_truncate
  rw [if_neg (by unfold count_tokens at *; omega)]
  simp only [hlen]
  norm_num
  have hld : t.data.length = 10000 := by
    have := charTok_count t
    omega
  have hsep : SEPARATOR.data.length = 7 := rfl
  have hc : count_tokens charTok
      (charTok.decode (List.take 148 (charTok.encode t)) ++ SEPARATOR ++
        charTok.decode (List.drop 9852 (charTok.encode t))) = 303 := by
    simp [count_tokens, charTok, String.data_append, hsep, hld]
  rw [if_pos (by omega)]
  show String.mk (((charTok.encode t).take 300).map Char.ofNat) = _
  have htake : (charTok.encode t).take 300 = (t.data.take 300).map Char.toNat := by
    show (t.data.map Char.toNat).take 300 = _
    rw [List.map_take]
  rw [htake, List.map_map]
  have hcomp : (t.data.take 300).map (Char.ofNat ∘ Char.toNat) = t.data.take 300 :=
    map_ofNat_toNat (t.data.take 300)
  rw [hcomp]

def bigBody : String := String.mk (List.replicate 10000 'a')

theorem bigBody_count : count_tokens charTok bigBody = 10000 := by
  rw [charTok_count]
  show (List.replicate 10000 'a').length = 10000
  rw [List.length_replicate]

theorem sep_data : SEPARATOR.data = [' ', '[', '.', '.', '.', ']', ' '] := rfl

theorem countSubstr_sep_replicate (n : Nat) :
    countSubstr SEPARATOR.data (List.replicate n 'a') = 0 := by
  induction n with
  | zero => rfl
  | succ n ih =>
    rw [List.replicate_succ]
    simp only [countSubstr]
    rw [ih]
    have hpre : SEPARATOR.data.isPrefixOf ('a' :: List.replicate n 'a') = false := rfl
    rw [hpre]
    rfl

/-- C8 counterexample: a concrete 10,000-token comment body truncated with
`max_tokens = 300` does NOT contain the separator marker exactly once — the
odd-overflow off-by-one in the proportional reduction leaves the smart
candidate over budget, the hard-prefix fallback fires, and the result
contains the separator zero times. -/
theorem smart_truncate_scenarioD_cex :
    count_tokens charTok bigBody = 10000 ∧
    countSubstr SEPARATOR.data (smart_truncate charTok bigBody 300).data ≠ 1 := by
  refine ⟨bigBody_count, ?_⟩
  rw [smart_truncate_10000_300 bigBody bigBody_count]
  show countSubstr SEPARATOR.data ((List.replicate 10000 'a').take 300) ≠ 1
  rw [List.take_replicate, countSubstr_sep_replicate]
  omega

/-- C8 amended: for every 10,000-token comment body (not itself containing
the separator), `smart_truncate` at `max_tokens = 300` respects the token
ceiling but returns the hard-prefix fallback, which contains the separator
marker ZERO times, not once: the head/tail reduction `148+148` plus a
separator of cost ≥ 5 (the source budgets exactly 5; the character
tokenizer charges 7) exceeds 300, so the smart result is discarded. -/
theorem smart_truncate_scenarioD_fallback (t : String)
    (hn : count_tokens charTok t = 10000)
    (hsep : countSubstr SEPARATOR.data t.data = 0) :
    countSubstr SEPARATOR.data (smart_truncate charTok t 300).data = 0 ∧
    count_tokens charTok (smart_truncate charTok t 300) ≤ 300 := by
  rw [smart_truncate_10000_300 t hn]
  constructor
  · show countSubstr SEPARATOR.data (t.data.take 300) = 0
    exact countSubstr_take_eq_zero _ _ (by rw [sep_data]; simp) hsep 300
  · rw [charTok_count]
    show (t.data.take 300).length ≤ 300
    rw [List.length_take]
    omega

/-- Witness for C8's amended statement at the concrete 10,000-token body. -/
theorem smart_truncate_scenarioD_fallback_witness :
    countSubstr SEPARATOR.data (smart_truncate charTok bigBody 300).data = 0 ∧
    count_tokens charTok (smart_truncate charTok bigBody 300) ≤ 300 :=
  smart_truncate_scenarioD_fallback bigBody bigBody_count
    (by show countSubstr SEPARATOR.data (List.replicate 10000 'a') = 0
        exact countSubstr_sep_replicate 10000)
